import Mathlib

/-!
Shallow embedding of the Intel HEX record parser (`parser.go`, package
`ihex`).  The Go `Parser` struct is embedded as a Lean structure; the
`bufio.Scanner` is modelled as the list of remaining input lines (one
`List Char` per line), passed alongside the state.  Machine integers are
`Nat` with explicit `% 2^32` where Go performs `uint32` arithmetic.  The
Go runtime panic on an out-of-range index into the `reclens` array is
modelled by an `Option` result (`none` = panic).
-/

/-- Error messages, verbatim from the Go source. -/
def msgMissingEnd : String := "missing end record"

def msgAfterEnd : String := "record after end"

def msgMissingMark : String := "missing record mark"

def msgTooShort : String := "record too short"

def msgBadLen : String := "invalid record length"

def msgBadSum : String := "invalid checksum"

def msgTrailing : String := "trailing data"

/-- A `Record` holds the address and data bytes from a data (type 0) record. -/
structure Record where
  Address : Nat
  Bytes : List Nat
deriving DecidableEq

/-- A `ParseError` represents an error encountered during parsing. -/
structure ParseError where
  Line : Nat
  Msg : String
deriving DecidableEq

/-- The `Parser` struct from the Go source, minus the `bufio.Scanner`
(modelled externally as the list of remaining lines) and the fixed
scratch array `field` (fields are returned as fresh lists). -/
structure Parser where
  err : Option ParseError
  lba : Nat
  useLBA : Bool
  sba : Nat
  useSBA : Bool
  cs : Nat
  ip : Nat
  hasCSIP : Bool
  eip : Nat
  hasEIP : Bool
  data : Record
  wrap : Option Record
  b : List Char
  line : Nat
  sum : Nat
  ended : Bool
deriving DecidableEq

/-- `NewParser` returns a new `Parser` (zero value of the Go struct). -/
def NewParser : Parser :=
  { err := none, lba := 0, useLBA := false, sba := 0, useSBA := false
    cs := 0, ip := 0, hasCSIP := false, eip := 0, hasEIP := false
    data := { Address := 0, Bytes := [] }, wrap := none
    b := [], line := 0, sum := 0, ended := false }

/-- `makeError` builds a `ParseError` carrying the current line counter. -/
def makeError (p : Parser) (msg : String) : ParseError :=
  { Line := p.line, Msg := msg }

/-- Go's `encoding/hex.fromHexChar`. -/
def fromHexChar (c : Char) : Option Nat :=
  if '0' ≤ c ∧ c ≤ '9' then some (c.toNat - '0'.toNat)
  else if 'a' ≤ c ∧ c ≤ 'f' then some (c.toNat - 'a'.toNat + 10)
  else if 'A' ≤ c ∧ c ≤ 'F' then some (c.toNat - 'A'.toNat + 10)
  else none

/-- Pairwise hex decoding, as in Go's `encoding/hex.Decode`: decodes
consecutive digit pairs, stopping at the first invalid character or at an
odd-length tail.  The returned list is the successfully decoded prefix
(its length is `hex.Decode`'s return value `nd`). -/
def hexDecodePairs : List Char → List Nat
  | a :: c :: rest =>
    match fromHexChar a, fromHexChar c with
    | some x, some y => ((x <<< 4) ||| y) :: hexDecodePairs rest
    | _, _ => []
  | _ => []

/-- `readFieldInto`: reads an `n`-byte hex field from the remaining line
`p.b`, advancing `p.b` and accumulating the running checksum.  Bytes past
the end of the line decode as invalid (in Go they are the line terminator
in the scanner's buffer, which is never a hex digit), so a short line
yields `nd < n` exactly as in the source. -/
def readFieldInto (p : Parser) (n : Nat) : Parser × List Nat :=
  if p.err.isSome then (p, [])
  else
    let fieldBytes := hexDecodePairs (p.b.take (n * 2))
    let nd := fieldBytes.length
    let p1 := { p with b := p.b.drop (nd * 2) }
    if nd < n then ({ p1 with err := some (makeError p1 msgTooShort) }, [])
    else ({ p1 with sum := (p1.sum + fieldBytes.sum) % 256 }, fieldBytes)

/-- `readField` reads into the shared scratch buffer; in the model it is
the same operation as `readFieldInto`. -/
def readField (p : Parser) (n : Nat) : Parser × List Nat :=
  readFieldInto p n

/-- `readByteField` reads a 1-byte field. -/
def readByteField (p : Parser) : Parser × Nat :=
  let r := readField p 1
  if r.1.err.isSome then (r.1, 0) else (r.1, r.2.headD 0)

/-- `readWordField` reads a 2-byte big-endian field. -/
def readWordField (p : Parser) : Parser × Nat :=
  let r := readField p 2
  if r.1.err.isSome then (r.1, 0)
  else (r.1, ((r.2.headD 0) <<< 8) ||| r.2.getD 1 0)

/-- `var reclens = [...]byte{0, 0, 2, 4, 2, 4}`. -/
def reclens : List Nat := [0, 0, 2, 4, 2, 4]

/-- `checkRecLen`: validates the record length against the fixed table.
Go evaluates `reclens[rectyp]` whenever `rectyp > 0`; for `rectyp > 5`
this indexes out of range and panics, modelled as `none`. -/
def checkRecLen (p : Parser) (rectyp reclen : Nat) : Option Parser :=
  if p.err.isSome then some p
  else if rectyp > 0 then
    match reclens[rectyp]? with
    | none => none
    | some expected =>
      if reclen ≠ expected then some { p with err := some (makeError p msgBadLen) }
      else some p
  else some p

/-- `endRecord`: reads the checksum byte (into `field[255:]`, which in the
model is just another fresh field), then checks the running sum and
trailing data. -/
def endRecord (p : Parser) : Parser :=
  let r := readFieldInto p 1
  if r.1.err.isSome then r.1
  else if r.1.sum ≠ 0 then { r.1 with err := some (makeError r.1 msgBadSum) }
  else if r.1.b.length > 0 then { r.1 with err := some (makeError r.1 msgTrailing) }
  else r.1

/-- `parseInfo`: dispatch on the record type, then `endRecord`.  Returns
the updated parser and `gotData`.  Address arithmetic is Go `uint32`
arithmetic, i.e. mod `2^32`; `uint32(next-1) & 0xffff` is `&&& 0xffff`. -/
def parseInfo (p : Parser) (rectyp reclen offset : Nat) : Parser × Bool :=
  if p.err.isSome then (p, true)
  else
    let s : Parser × Bool :=
      match rectyp with
      | 0 =>
        let r := readField p reclen
        let addr :=
          if r.1.useSBA then (r.1.sba + offset) % 4294967296
          else if r.1.useLBA then r.1.lba ||| offset
          else offset
        let q1 := { r.1 with data := { Address := addr, Bytes := r.2 } }
        let q2 :=
          if !q1.useLBA then
            let next := offset + q1.data.Bytes.length
            let extra := next - 1 - 0xffff
            if extra > 0 then
              { q1 with
                wrap := some { Address := (q1.sba + ((next - 1) &&& 0xffff)) % 4294967296
                               Bytes := q1.data.Bytes.drop extra }
                data := { q1.data with Bytes := q1.data.Bytes.take extra } }
            else q1
          else q1
        (q2, true)
      | 1 => ({ p with ended := true }, false)
      | 2 =>
        let r := readWordField p
        ({ r.1 with sba := r.2 <<< 4, useSBA := true, lba := 0, useLBA := false }, false)
      | 3 =>
        let r1 := readWordField p
        let r2 := readWordField r1.1
        ({ r2.1 with cs := r1.2, ip := r2.2, hasCSIP := true }, false)
      | 4 =>
        let r := readWordField p
        ({ r.1 with sba := 0, useSBA := false, lba := r.2 <<< 16, useLBA := true }, false)
      | 5 =>
        let r1 := readWordField p
        let r2 := readWordField r1.1
        ({ r2.1 with eip := (r1.2 <<< 16) ||| r2.2, hasEIP := true }, false)
      | _ => (p, false)
    (endRecord s.1, s.2)

/-- The per-line body of `Parse` (everything from `p.b = b[1:]` through
`parseInfo`).  `none` models the Go panic from `checkRecLen`. -/
def parseLine (p : Parser) (l : List Char) : Option (Parser × Bool) :=
  let p0 := { p with b := l.drop 1, sum := 0 }
  let r1 := readByteField p0
  let r2 := readWordField r1.1
  let r3 := readByteField r2.1
  match checkRecLen r3.1 r3.2 r1.2 with
  | none => none
  | some p4 => some (parseInfo p4 r3.2 r1.2 r2.2)

/-- `Parse` reads the next data record.  The `scanLine` logic (end-of-input,
record-after-end, line counting) is inlined into the match on the input
list; the `goto NextRec` loop becomes recursion on the remaining lines.
Result: `none` = Go panic; `some (p, rest, ok)` = updated state, remaining
input, and `Parse`'s boolean result. -/
def Parse : Parser → List (List Char) → Option (Parser × List (List Char) × Bool)
  | p, [] =>
    if p.err.isSome then some (p, [], false)
    else
      match p.wrap with
      | some r => some ({ p with data := r, wrap := none }, [], true)
      | none =>
        if p.ended then some (p, [], false)
        else some ({ p with err := some (makeError p msgMissingEnd) }, [], false)
  | p, l :: rest =>
    if p.err.isSome then some (p, l :: rest, false)
    else
      match p.wrap with
      | some r => some ({ p with data := r, wrap := none }, l :: rest, true)
      | none =>
        if p.ended then
          some ({ p with err := some (makeError p msgAfterEnd) }, rest, false)
        else
          let p1 := { p with line := p.line + 1 }
          if l.isEmpty then Parse p1 rest
          else if l.headD ' ' ≠ ':' then
            some ({ p1 with err := some (makeError p1 msgMissingMark) }, rest, false)
          else
            match parseLine p1 l with
            | none => none
            | some r =>
              if r.2 then some (r.1, rest, r.1.err.isNone)
              else Parse r.1 rest

/-- `Data` returns the last record read. -/
def Data (p : Parser) : Record :=
  p.data

/-- `Err` returns the first error that was encountered by the parser. -/
def Err (p : Parser) : Option ParseError :=
  p.err

/-- `CSIP` returns `(cs, ip, ok)`. -/
def CSIP (p : Parser) : Nat × Nat × Bool :=
  (p.cs, p.ip, p.hasCSIP)

/-- `EIP` returns `(eip, ok)`. -/
def EIP (p : Parser) : Nat × Bool :=
  (p.eip, p.hasEIP)

/-- At most one of segment-base and linear-base mode is active. -/
def BaseInv (p : Parser) : Prop :=
  ¬(p.useSBA = true ∧ p.useLBA = true)

/-- Concrete input lines, taken from the Go tests and the spec examples. -/
def lineEOF : List Char := ":00000001FF".data

def lineSeg1200 : List Char := ":020000021200EA".data

def lineSegWrapData : List Char := ":02FFFF00000000".data

def lineDataGap : List Char := ":0B0010006164647265737320676170A7".data

def lineLBAffff : List Char := ":02000004FFFFFC".data

def lineDataFFFE3 : List Char := ":03FFFE00AABBCCCF".data

def lineType6 : List Char := ":00000006FA".data

def lineBadHexZZ : List Char := ":01000000ZZFF".data

/-- A parser state that has already seen the end-of-file record. -/
def pEnded : Parser := { NewParser with ended := true }

/-- A parser state with two unread non-hex characters on the line. -/
def pZZ : Parser := { NewParser with b := ['Z', 'Z'] }

/-- A parser state carrying a recorded error. -/
def pErr : Parser := { NewParser with err := some { Line := 3, Msg := msgBadSum } }

/-- A parser state whose remaining line is a checksum byte that will fail
the checksum test (sum 0 + 0xFE = 254, nonzero). -/
def pBadSum1 : Parser := { NewParser with b := ['F', 'E'] }

/-- A linear-base parser state with a 2-byte payload and a checksum on
the line. -/
def bAABB : List Char := "AABB00".data

def pLBA : Parser := { NewParser with useLBA := true, lba := 4294901760, b := bAABB }

def bFFE3 : List Char := "AABBCCCF".data

/-- A segment-base parser state (base 0x12000) about to read a 3-byte
payload at offset 0xFFFE, which crosses the 16-bit boundary. -/
def pSeg : Parser := { NewParser with sba := 73728, useSBA := true, b := bFFE3 }

theorem readField_eq (p : Parser) (n : Nat) : readField p n = readFieldInto p n := rfl

/-- `readFieldInto` only changes the remaining-line buffer, the running
sum, and the error; every other field of the parser is untouched. -/
theorem readFieldInto_frame (p : Parser) (n : Nat) :
    ∃ b1 s1 e1, (readFieldInto p n).1 = { p with b := b1, sum := s1, err := e1 } := by
  unfold readFieldInto
  split
  · exact ⟨p.b, p.sum, p.err, rfl⟩
  · dsimp only
    split
    · exact ⟨_, _, _, rfl⟩
    · exact ⟨_, _, _, rfl⟩

/-- `endRecord` only changes the buffer, the sum, and the error. -/
theorem endRecord_frame (p : Parser) :
    ∃ b1 s1 e1, endRecord p = { p with b := b1, sum := s1, err := e1 } := by
  obtain ⟨b1, s1, e1, h⟩ := readFieldInto_frame p 1
  unfold endRecord
  dsimp only
  rw [h]
  split
  · exact ⟨_, _, _, rfl⟩
  · split
    · exact ⟨_, _, _, rfl⟩
    · split
      · exact ⟨_, _, _, rfl⟩
      · exact ⟨_, _, _, rfl⟩

theorem readByteField_fst (p : Parser) : (readByteField p).1 = (readFieldInto p 1).1 := by
  unfold readByteField readField
  dsimp only
  split <;> rfl

theorem readWordField_fst (p : Parser) : (readWordField p).1 = (readFieldInto p 2).1 := by
  unfold readWordField readField
  dsimp only
  split <;> rfl

/-- Field projections through `readFieldInto`. -/
theorem readFieldInto_useSBA (p : Parser) (n : Nat) :
    (readFieldInto p n).1.useSBA = p.useSBA := by
  obtain ⟨b1, s1, e1, h⟩ := readFieldInto_frame p n
  rw [h]

theorem readFieldInto_useLBA (p : Parser) (n : Nat) :
    (readFieldInto p n).1.useLBA = p.useLBA := by
  obtain ⟨b1, s1, e1, h⟩ := readFieldInto_frame p n
  rw [h]

/-- Field projections through `endRecord`. -/
theorem endRecord_useSBA (p : Parser) : (endRecord p).useSBA = p.useSBA := by
  obtain ⟨b1, s1, e1, h⟩ := endRecord_frame p
  rw [h]

theorem endRecord_useLBA (p : Parser) : (endRecord p).useLBA = p.useLBA := by
  obtain ⟨b1, s1, e1, h⟩ := endRecord_frame p
  rw [h]

/-- `parseInfo` never activates both base modes: types 2 and 4 overwrite
both flags with opposite values, and no other case touches them. -/
theorem parseInfo_baseInv (p : Parser) (t rl off : Nat) (h : BaseInv p) :
    BaseInv (parseInfo p t rl off).1 := by
  unfold parseInfo
  split
  · exact h
  · dsimp only
    unfold BaseInv at *
    rcases t with _ | _ | _ | _ | _ | _ | t <;>
      simp only [endRecord_useSBA, endRecord_useLBA, readWordField_fst,
        readFieldInto_useSBA, readFieldInto_useLBA, readField_eq]
    · -- type 0: flags pass through the address/split computation
      split
      · split <;>
          simp only [readFieldInto_useSBA, readFieldInto_useLBA] <;> exact h
      · simp only [readFieldInto_useSBA, readFieldInto_useLBA]
        exact h
    · exact h
    · simp
    · exact h
    · simp
    · exact h
    · exact h

/-- `checkRecLen` either panics or at most records an error. -/
theorem checkRecLen_some (p : Parser) (t l : Nat) (q : Parser)
    (h : checkRecLen p t l = some q) : ∃ e1, q = { p with err := e1 } := by
  unfold checkRecLen at h
  split at h
  · injection h with h
    exact ⟨p.err, h.symm⟩
  · split at h
    · split at h
      · exact absurd h (by simp)
      · split at h
        · injection h with h
          exact ⟨_, h.symm⟩
        · injection h with h
          exact ⟨p.err, h.symm⟩
    · injection h with h
      exact ⟨p.err, h.symm⟩

/-- `parseLine` preserves the base-mode invariant. -/
theorem parseLine_baseInv (p : Parser) (l : List Char) (q : Parser) (g : Bool)
    (hp : BaseInv p) (h : parseLine p l = some (q, g)) : BaseInv q := by
  unfold parseLine at h
  dsimp only at h
  split at h
  · exact absurd h (by simp)
  · rename_i p4 heq
    injection h with h
    have hq : q = (parseInfo p4 _ _ _).1 := congrArg Prod.fst h.symm
    rw [hq]
    apply parseInfo_baseInv
    obtain ⟨e1, he⟩ := checkRecLen_some _ _ _ _ heq
    rw [he]
    unfold BaseInv at *
    simp only [readByteField_fst, readWordField_fst, readFieldInto_useSBA,
      readFieldInto_useLBA]
    exact hp

/-- Every `Parse` step preserves the base-mode invariant. -/
theorem Parse_baseInv : ∀ (input : List (List Char)) (p q : Parser)
    (rest : List (List Char)) (bb : Bool), BaseInv p →
    Parse p input = some (q, rest, bb) → BaseInv q := by
  intro input
  induction input with
  | nil =>
    intro p q rest bb hp h
    unfold Parse at h
    split at h
    · simp only [Option.some.injEq, Prod.mk.injEq] at h
      obtain ⟨h1, h2, h3⟩ := h
      subst h1
      exact hp
    · split at h
      · simp only [Option.some.injEq, Prod.mk.injEq] at h
        obtain ⟨h1, h2, h3⟩ := h
        subst h1
        exact hp
      · split at h <;>
          (simp only [Option.some.injEq, Prod.mk.injEq] at h
           obtain ⟨h1, h2, h3⟩ := h
           subst h1
           exact hp)
  | cons l rest0 ih =>
    intro p q rest bb hp h
    unfold Parse at h
    split at h
    · simp only [Option.some.injEq, Prod.mk.injEq] at h
      obtain ⟨h1, h2, h3⟩ := h
      subst h1
      exact hp
    · split at h
      · simp only [Option.some.injEq, Prod.mk.injEq] at h
        obtain ⟨h1, h2, h3⟩ := h
        subst h1
        exact hp
      · split at h
        · simp only [Option.some.injEq, Prod.mk.injEq] at h
          obtain ⟨h1, h2, h3⟩ := h
          subst h1
          exact hp
        · dsimp only at h
          split at h
          · exact ih _ _ _ _ (by exact hp) h
          · split at h
            · simp only [Option.some.injEq, Prod.mk.injEq] at h
              obtain ⟨h1, h2, h3⟩ := h
              subst h1
              exact hp
            · split at h
              · exact absurd h (by simp)
              · rename_i r heq
                split at h
                · simp only [Option.some.injEq, Prod.mk.injEq] at h
                  obtain ⟨h1, h2, h3⟩ := h
                  subst h1
                  exact parseLine_baseInv _ _ _ _ (by exact hp) heq
                · exact ih _ _ _ _
                    (by exact parseLine_baseInv _ _ _ _ (by exact hp) heq) h

/-- C2: a well-formed line whose record type exceeds 5 is not a no-op:
`checkRecLen` evaluates `reclens[rectyp]`, which is out of range for the
six-entry table, so the parser panics (modelled as `none`). -/
theorem c2_unknown_type_panics (p : Parser) (rectyp reclen : Nat)
    (he : p.err = none) (hgt : rectyp > 5) :
    checkRecLen p rectyp reclen = none := by
  have h0 : rectyp > 0 := by omega
  have h6 : reclens[rectyp]? = none := by
    apply List.getElem?_eq_none
    simp only [reclens, List.length_cons, List.length_nil]
    omega
  unfold checkRecLen
  simp [he, h0, h6]

/-- C2 witness: the panic is reachable (type 6, valid checksum). -/
theorem c2_unknown_type_panics_witness :
    NewParser.err = none ∧ checkRecLen NewParser 6 0 = none :=
  ⟨rfl, c2_unknown_type_panics NewParser 6 0 rfl (by decide)⟩

/-- C2 counterexample: the full parser crashes (Go: index out of range)
on an otherwise well-formed type-6 record, instead of skipping it. -/
theorem c2_counterexample : Parse NewParser [lineType6] = none := by decide

/-- C3 (amended): after the end-of-file record, ANY further line — blank
or not — raises the record-after-end error, because `scanLine` checks
`p.ended` before the blank-line test. -/
theorem c3_blank_after_end (p : Parser) (l : List Char) (rest : List (List Char))
    (he : p.err = none) (hw : p.wrap = none) (hd : p.ended = true) :
    Parse p (l :: rest) =
      some ({ p with err := some (makeError p msgAfterEnd) }, rest, false) := by
  unfold Parse
  simp [he, hw, hd]

/-- C3 witness: a blank line after the end record raises the error. -/
theorem c3_blank_after_end_witness :
    Parse pEnded [[]] =
      some ({ pEnded with err := some (makeError pEnded msgAfterEnd) }, [], false) :=
  c3_blank_after_end pEnded [] [] rfl rfl rfl

/-- C3 counterexample: an end record followed by a blank line is an
error, not a silent skip as the claim states. -/
theorem c3_counterexample :
    (Parse NewParser [lineEOF, []]).map (fun r => (Err r.1, r.2.2)) =
      some (some { Line := 1, Msg := msgAfterEnd }, false) := by decide

/-- C4 (amended): the record-after-end error carries the line counter as
it stood before the offending line — the counter is not incremented for
the line that triggers the error, so the number is that of the last line
consumed before it, not of the offending line itself. -/
theorem c4_after_end_line_number (p : Parser) (l : List Char)
    (rest : List (List Char))
    (he : p.err = none) (hw : p.wrap = none) (hd : p.ended = true) :
    (Parse p (l :: rest)).map (fun r => Err r.1) =
      some (some { Line := p.line, Msg := msgAfterEnd }) := by
  unfold Parse
  simp [he, hw, hd, Err, makeError]

/-- C4 witness. -/
theorem c4_after_end_line_number_witness :
    (Parse pEnded [lineSeg1200]).map (fun r => Err r.1) =
      some (some { Line := 0, Msg := msgAfterEnd }) :=
  c4_after_end_line_number pEnded lineSeg1200 [] rfl rfl rfl

/-- C4 counterexample: the offending line is the second line (two lines
consumed including it), but the error reports line 1, matching the Go
test `TestEnd`. -/
theorem c4_counterexample :
    (Parse NewParser [lineEOF, lineSeg1200]).map (fun r => Err r.1) =
      some (some { Line := 1, Msg := msgAfterEnd }) ∧ (1 : Nat) ≠ 2 := by decide

/-- C5 (amended): every field-decoding failure — odd digit count,
non-hex character, or a field running past the end of the line — is
reported as the single error `record too short`; the hex error from the
decoder is always overwritten, so no distinct malformed-hex error
exists. -/
theorem c5_decode_errors_record_too_short (p : Parser) (n : Nat)
    (he : p.err = none) :
    (readFieldInto p n).1.err = none
    ∨ (readFieldInto p n).1.err = some { Line := p.line, Msg := msgTooShort } := by
  unfold readFieldInto
  rw [if_neg (by simp [he])]
  dsimp only
  split
  · right
    rfl
  · left
    exact he

/-- C5 witness: a non-hex pair with enough characters available still
produces `record too short`. -/
theorem c5_decode_errors_record_too_short_witness :
    pZZ.err = none ∧
      ((readFieldInto pZZ 1).1.err = none
       ∨ (readFieldInto pZZ 1).1.err = some { Line := 0, Msg := msgTooShort }) :=
  ⟨rfl, c5_decode_errors_record_too_short pZZ 1 rfl⟩

/-- C5 counterexample: a 1-byte payload field with two non-hex characters
available (declared length does not exceed the remaining characters)
fails with `record too short`, not a distinct malformed-hex error. -/
theorem c5_counterexample :
    (Parse NewParser [lineBadHexZZ]).map (fun r => Err r.1) =
      some (some { Line := 1, Msg := msgTooShort })
    ∧ 1 * 2 ≤ (lineBadHexZZ.drop 9).length := by decide

/-- C9: errors are sticky — with an error recorded, `Parse` returns
`false` immediately, consumes no input, changes no state, and the `Err`
accessor still reports the originally recorded (first) error. -/
theorem c9_errors_sticky (p : Parser) (input : List (List Char))
    (e : ParseError) (h : Err p = some e) :
    Parse p input = some (p, input, false) ∧ Err p = some e := by
  have hs : p.err.isSome = true := by
    unfold Err at h
    rw [h]
    rfl
  refine ⟨?_, h⟩
  cases input with
  | nil =>
    unfold Parse
    rw [if_pos hs]
  | cons l rest =>
    unfold Parse
    rw [if_pos hs]

/-- C9 witness. -/
theorem c9_errors_sticky_witness :
    Parse pErr [lineEOF] = some (pErr, [lineEOF], false)
    ∧ Err pErr = some { Line := 3, Msg := msgBadSum } :=
  c9_errors_sticky pErr [lineEOF] { Line := 3, Msg := msgBadSum } rfl

theorem readFieldInto_sba (p : Parser) (n : Nat) :
    (readFieldInto p n).1.sba = p.sba := by
  obtain ⟨b1, s1, e1, h⟩ := readFieldInto_frame p n
  rw [h]

theorem readFieldInto_lba (p : Parser) (n : Nat) :
    (readFieldInto p n).1.lba = p.lba := by
  obtain ⟨b1, s1, e1, h⟩ := readFieldInto_frame p n
  rw [h]

theorem readFieldInto_wrap (p : Parser) (n : Nat) :
    (readFieldInto p n).1.wrap = p.wrap := by
  obtain ⟨b1, s1, e1, h⟩ := readFieldInto_frame p n
  rw [h]

theorem readFieldInto_data (p : Parser) (n : Nat) :
    (readFieldInto p n).1.data = p.data := by
  obtain ⟨b1, s1, e1, h⟩ := readFieldInto_frame p n
  rw [h]

theorem endRecord_data (p : Parser) : (endRecord p).data = p.data := by
  obtain ⟨b1, s1, e1, h⟩ := endRecord_frame p
  rw [h]

theorem endRecord_wrap (p : Parser) : (endRecord p).wrap = p.wrap := by
  obtain ⟨b1, s1, e1, h⟩ := endRecord_frame p
  rw [h]

theorem endRecord_sba (p : Parser) : (endRecord p).sba = p.sba := by
  obtain ⟨b1, s1, e1, h⟩ := endRecord_frame p
  rw [h]

theorem endRecord_lba (p : Parser) : (endRecord p).lba = p.lba := by
  obtain ⟨b1, s1, e1, h⟩ := endRecord_frame p
  rw [h]

theorem endRecord_ended (p : Parser) : (endRecord p).ended = p.ended := by
  obtain ⟨b1, s1, e1, h⟩ := endRecord_frame p
  rw [h]

theorem endRecord_cs (p : Parser) : (endRecord p).cs = p.cs := by
  obtain ⟨b1, s1, e1, h⟩ := endRecord_frame p
  rw [h]

theorem endRecord_ip (p : Parser) : (endRecord p).ip = p.ip := by
  obtain ⟨b1, s1, e1, h⟩ := endRecord_frame p
  rw [h]

theorem endRecord_hasCSIP (p : Parser) : (endRecord p).hasCSIP = p.hasCSIP := by
  obtain ⟨b1, s1, e1, h⟩ := endRecord_frame p
  rw [h]

theorem endRecord_eip (p : Parser) : (endRecord p).eip = p.eip := by
  obtain ⟨b1, s1, e1, h⟩ := endRecord_frame p
  rw [h]

theorem endRecord_hasEIP (p : Parser) : (endRecord p).hasEIP = p.hasEIP := by
  obtain ⟨b1, s1, e1, h⟩ := endRecord_frame p
  rw [h]

/-- C8: at every reachable state at most one base mode is active — the
zero value satisfies the invariant, a type-2 record activates segment
base while clearing the linear-base flag, a type-4 record does the
opposite, and every `Parse` step preserves the invariant. -/
theorem c8_base_modes_exclusive :
    BaseInv NewParser
    ∧ (∀ p reclen offset, p.err = none →
        (parseInfo p 2 reclen offset).1.useSBA = true
        ∧ (parseInfo p 2 reclen offset).1.useLBA = false)
    ∧ (∀ p reclen offset, p.err = none →
        (parseInfo p 4 reclen offset).1.useLBA = true
        ∧ (parseInfo p 4 reclen offset).1.useSBA = false)
    ∧ (∀ p input q rest bb, BaseInv p →
        Parse p input = some (q, rest, bb) → BaseInv q) := by
  refine ⟨?_, ?_, ?_, ?_⟩
  · unfold BaseInv NewParser
    simp
  · intro p reclen offset he
    unfold parseInfo
    rw [if_neg (by simp [he])]
    dsimp only
    constructor <;> simp [endRecord_useSBA, endRecord_useLBA]
  · intro p reclen offset he
    unfold parseInfo
    rw [if_neg (by simp [he])]
    dsimp only
    constructor <;> simp [endRecord_useSBA, endRecord_useLBA]
  · intro p input q rest bb
    exact Parse_baseInv input p q rest bb

/-- C8 witness. -/
theorem c8_base_modes_exclusive_witness :
    BaseInv NewParser
    ∧ ((parseInfo NewParser 2 0 0).1.useSBA = true
       ∧ (parseInfo NewParser 2 0 0).1.useLBA = false)
    ∧ ((parseInfo NewParser 4 0 0).1.useLBA = true
       ∧ (parseInfo NewParser 4 0 0).1.useSBA = false)
    ∧ BaseInv { NewParser with err := some (makeError NewParser msgMissingEnd) } :=
  ⟨c8_base_modes_exclusive.1,
   c8_base_modes_exclusive.2.1 NewParser 0 0 rfl,
   c8_base_modes_exclusive.2.2.1 NewParser 0 0 rfl,
   c8_base_modes_exclusive.2.2.2 NewParser []
     { NewParser with err := some (makeError NewParser msgMissingEnd) } [] false
     c8_base_modes_exclusive.1 (by decide)⟩

/-- C10: record side effects are applied before the checksum and
trailing-data checks of `endRecord` — the state changes below hold with
no assumption on the resulting error: type 1 sets `ended`, types 2/4
switch the base mode and store the shifted base, types 3/5 store CS:IP /
EIP and raise their presence flags, and type 0 overwrites the data
record's address. -/
theorem c10_effects_before_validation (p : Parser) (reclen offset : Nat)
    (he : p.err = none) :
    (parseInfo p 1 reclen offset).1.ended = true
    ∧ ((parseInfo p 2 reclen offset).1.useSBA = true
       ∧ (parseInfo p 2 reclen offset).1.useLBA = false
       ∧ (parseInfo p 2 reclen offset).1.sba = (readWordField p).2 <<< 4)
    ∧ ((parseInfo p 4 reclen offset).1.useLBA = true
       ∧ (parseInfo p 4 reclen offset).1.useSBA = false
       ∧ (parseInfo p 4 reclen offset).1.lba = (readWordField p).2 <<< 16)
    ∧ ((parseInfo p 3 reclen offset).1.hasCSIP = true
       ∧ (parseInfo p 3 reclen offset).1.cs = (readWordField p).2
       ∧ (parseInfo p 3 reclen offset).1.ip = (readWordField (readWordField p).1).2)
    ∧ ((parseInfo p 5 reclen offset).1.hasEIP = true
       ∧ (parseInfo p 5 reclen offset).1.eip =
           ((readWordField p).2 <<< 16) ||| (readWordField (readWordField p).1).2)
    ∧ (parseInfo p 0 reclen offset).1.data.Address =
        (if p.useSBA = true then (p.sba + offset) % 4294967296
         else if p.useLBA = true then p.lba ||| offset
         else offset) := by
  have hs : ¬p.err.isSome = true := by simp [he]
  refine ⟨?_, ⟨?_, ?_, ?_⟩, ⟨?_, ?_, ?_⟩, ⟨?_, ?_, ?_⟩, ⟨?_, ?_⟩, ?_⟩ <;>
    (unfold parseInfo
     rw [if_neg hs]
     dsimp only) <;>
    simp [endRecord_ended, endRecord_useSBA, endRecord_useLBA, endRecord_sba,
      endRecord_lba, endRecord_cs, endRecord_ip, endRecord_hasCSIP,
      endRecord_eip, endRecord_hasEIP]
  -- remaining goal: the type-0 data address
  rw [endRecord_data]
  split
  · split <;>
      simp [readFieldInto_useSBA, readFieldInto_useLBA, readFieldInto_sba,
        readFieldInto_lba, readField_eq]
  · simp [readFieldInto_useSBA, readFieldInto_useLBA, readFieldInto_sba,
      readFieldInto_lba, readField_eq]

/-- C10 witness: a type-1 record whose checksum byte is wrong still sets
`ended`, even though the record errors with `invalid checksum`. -/
theorem c10_effects_before_validation_witness :
    (parseInfo pBadSum1 1 0 0).1.ended = true
    ∧ (parseInfo pBadSum1 1 0 0).1.err = some { Line := 0, Msg := msgBadSum } := by
  have h := c10_effects_before_validation pBadSum1 0 0 rfl
  exact ⟨h.1, by decide⟩

/-- C6: the address of an emitted type-0 record is `(sba + offset) mod
2^32` under segment-base mode, `lba ||| offset` under linear-base mode
(with no wraparound split and the full payload kept), and the raw offset
with no base active; a type-2 record stores `segment <<< 4` as the
segment base and a type-4 record stores `upper <<< 16` as the linear
base. -/
theorem c6_address_modes (p : Parser) (reclen offset : Nat) (he : p.err = none) :
    (parseInfo p 0 reclen offset).2 = true
    ∧ (parseInfo p 0 reclen offset).1.data.Address =
        (if p.useSBA = true then (p.sba + offset) % 4294967296
         else if p.useLBA = true then p.lba ||| offset
         else offset)
    ∧ (p.useLBA = true →
        (parseInfo p 0 reclen offset).1.wrap = p.wrap
        ∧ (parseInfo p 0 reclen offset).1.data.Bytes = (readField p reclen).2)
    ∧ (parseInfo p 2 reclen offset).1.sba = (readWordField p).2 <<< 4
    ∧ (parseInfo p 4 reclen offset).1.lba = (readWordField p).2 <<< 16 := by
  have hs : ¬p.err.isSome = true := by simp [he]
  refine ⟨?_, ?_, ?_, ?_, ?_⟩
  · unfold parseInfo
    rw [if_neg hs]
  · unfold parseInfo
    rw [if_neg hs]
    dsimp only
    rw [endRecord_data]
    split
    · split <;>
        simp [readFieldInto_useSBA, readFieldInto_useLBA, readFieldInto_sba,
          readFieldInto_lba, readField_eq]
    · simp [readFieldInto_useSBA, readFieldInto_useLBA, readFieldInto_sba,
        readFieldInto_lba, readField_eq]
  · unfold parseInfo
    rw [if_neg hs]
    dsimp only
    intro hl
    have hq1 : (readField p reclen).1.useLBA = true := by
      rw [readField_eq, readFieldInto_useLBA]
      exact hl
    rw [if_neg (by simp [hq1])]
    constructor
    · rw [endRecord_wrap]
      dsimp only
      rw [readField_eq, readFieldInto_wrap]
    · rw [endRecord_data]
  · unfold parseInfo
    rw [if_neg hs]
    dsimp only
    simp [endRecord_sba]
  · unfold parseInfo
    rw [if_neg hs]
    dsimp only
    simp [endRecord_lba]

/-- C6 witness: linear base `0xFFFF0000` with a data record at offset
`0x0010` yields address `0xFFFF0010`, with no split pending. -/
theorem c6_address_modes_witness :
    (parseInfo pLBA 0 2 16).1.data.Address = 4294901776
    ∧ (parseInfo pLBA 0 2 16).1.wrap = none := by
  have h := c6_address_modes pLBA 2 16 rfl
  constructor
  · rw [h.2.1]
    decide
  · rw [(h.2.2.1 rfl).1]
    rfl

/-- C7: the running checksum accumulates every decoded byte of every
field (mod 256), and `endRecord`, after folding in the checksum byte
itself, rejects the record with `invalid checksum` exactly when the
total is nonzero mod 256: a record passes only if the sum of all its
decoded bytes, checksum included, is 0 mod 256. -/
theorem c7_checksum_total_zero (p : Parser) (he : p.err = none) :
    (∀ n q bytes, readFieldInto p n = (q, bytes) → q.err = none →
        q.sum = (p.sum + bytes.sum) % 256)
    ∧ (∀ c, hexDecodePairs (p.b.take 2) = [c] →
        (((p.sum + c) % 256 ≠ 0 →
            (endRecord p).err = some { Line := p.line, Msg := msgBadSum })
         ∧ ((endRecord p).err = none → (p.sum + c) % 256 = 0))) := by
  have hs : ¬p.err.isSome = true := by simp [he]
  constructor
  · intro n q bytes hr hqe
    unfold readFieldInto at hr
    rw [if_neg hs] at hr
    dsimp only at hr
    split at hr
    · simp only [Prod.mk.injEq] at hr
      rw [← hr.1] at hqe
      simp at hqe
    · simp only [Prod.mk.injEq] at hr
      rw [← hr.1, ← hr.2]
  · intro c hc
    have hr1 : readFieldInto p 1 = ({ p with b := p.b.drop 2, sum := (p.sum + c) % 256 }, [c]) := by
      unfold readFieldInto
      rw [if_neg hs]
      simp [hc]
    have hA : (p.sum + c) % 256 ≠ 0 →
        (endRecord p).err = some { Line := p.line, Msg := msgBadSum } := by
      intro hnz
      unfold endRecord
      rw [hr1]
      dsimp only
      rw [if_neg (by simp [he]), if_pos (by exact hnz)]
      rfl
    refine ⟨hA, ?_⟩
    intro hen
    by_contra hnz
    rw [hA hnz] at hen
    exact absurd hen (by simp)

/-- C7 witness: reading the checksum byte `FE` with running sum 0 gives
total 254 mod 256, which is nonzero, so the record is rejected with
`invalid checksum`; and the field reader adds the byte to the sum. -/
theorem c7_checksum_total_zero_witness :
    (readFieldInto pBadSum1 1).1.sum = 254
    ∧ (endRecord pBadSum1).err = some { Line := 0, Msg := msgBadSum } := by
  have h := c7_checksum_total_zero pBadSum1 rfl
  constructor
  · rw [(h.1 1 (readFieldInto pBadSum1 1).1 [254] (by decide) (by decide))]
    decide
  · exact (h.2 254 (by decide)).1 (by decide)

/-- C1 (amended): when no linear-base mode is active and
`offset + payload.length - 1` exceeds `0xFFFF`, the record is split, but
the code keeps the FIRST `offset + payload.length - 0x10000` payload
bytes in the current record at `baseAddress` and moves the REMAINING
`0x10000 - offset` bytes into the pending record at
`segmentBase + ((offset + payload.length - 1) & 0xFFFF)`; the pending
record is emitted by the following `Parse` before any further line is
read. -/
theorem c1_segment_split (p : Parser) (reclen offset : Nat) (pa : Parser)
    (bytes : List Nat) (he : p.err = none) (hl : p.useLBA = false)
    (hr0 : readField p reclen = (pa, bytes))
    (hov : 65536 < offset + bytes.length) :
    (parseInfo p 0 reclen offset).2 = true
    ∧ (parseInfo p 0 reclen offset).1.data.Address =
        (if p.useSBA = true then (p.sba + offset) % 4294967296 else offset)
    ∧ (parseInfo p 0 reclen offset).1.data.Bytes =
        bytes.take (offset + bytes.length - 65536)
    ∧ (parseInfo p 0 reclen offset).1.wrap =
        some { Address := (p.sba + ((offset + bytes.length - 1) &&& 65535)) % 4294967296,
               Bytes := bytes.drop (offset + bytes.length - 65536) }
    ∧ (∀ input, (parseInfo p 0 reclen offset).1.err = none →
        Parse (parseInfo p 0 reclen offset).1 input =
          some ({ (parseInfo p 0 reclen offset).1 with
                  data := { Address := (p.sba + ((offset + bytes.length - 1) &&& 65535)) % 4294967296,
                            Bytes := bytes.drop (offset + bytes.length - 65536) },
                  wrap := none }, input, true)) := by
  have hs : ¬p.err.isSome = true := by simp [he]
  obtain ⟨b1, s1, e1, hframe⟩ := readFieldInto_frame p reclen
  have hr : readFieldInto p reclen = (pa, bytes) := by rw [← readField_eq, hr0]
  have hpa : pa = { p with b := b1, sum := s1, err := e1 } := by
    have h2 := hframe
    rw [hr] at h2
    exact h2
  subst hpa
  have hx : offset + bytes.length - 1 - 65535 = offset + bytes.length - 65536 := by
    omega
  have hmain : parseInfo p 0 reclen offset =
      (endRecord
        { p with
          b := b1, sum := s1, err := e1,
          data := { Address := (if p.useSBA = true then (p.sba + offset) % 4294967296 else offset),
                    Bytes := bytes.take (offset + bytes.length - 65536) },
          wrap := some { Address := (p.sba + ((offset + bytes.length - 1) &&& 65535)) % 4294967296,
                         Bytes := bytes.drop (offset + bytes.length - 65536) } }, true) := by
    unfold parseInfo
    rw [if_neg hs]
    dsimp only
    rw [hr0]
    dsimp only
    rw [if_pos (by simp [hl])]
    rw [if_pos (by omega : offset + bytes.length - 1 - 65535 > 0)]
    simp [hl, hx]
  rw [hmain]
  dsimp only
  refine ⟨rfl, ?_, ?_, ?_, ?_⟩
  · rw [endRecord_data]
  · rw [endRecord_data]
  · rw [endRecord_wrap]
  · intro input hqe
    have hw := endRecord_wrap
      { p with
        b := b1, sum := s1, err := e1,
        data := { Address := (if p.useSBA = true then (p.sba + offset) % 4294967296 else offset),
                  Bytes := bytes.take (offset + bytes.length - 65536) },
        wrap := some { Address := (p.sba + ((offset + bytes.length - 1) &&& 65535)) % 4294967296,
                       Bytes := bytes.drop (offset + bytes.length - 65536) } }
    cases input with
    | nil =>
      unfold Parse
      rw [if_neg (by simp [hqe])]
      rw [hw]
    | cons l rest =>
      unfold Parse
      rw [if_neg (by simp [hqe])]
      rw [hw]

/-- C1 witness: segment base 0x12000, offset 0xFFFE, payload
`AA BB CC`: the current record keeps 1 byte (`AA`) and the pending
record holds 2 bytes (`BB CC`) at 0x12000. -/
theorem c1_segment_split_witness :
    (parseInfo pSeg 0 3 65534).1.data.Bytes = [170]
    ∧ (parseInfo pSeg 0 3 65534).1.wrap =
        some { Address := 73728, Bytes := [187, 204] } := by
  have h := c1_segment_split pSeg 3 65534 { pSeg with b := ['C', 'F'], sum := 49 }
    [170, 187, 204] rfl rfl (by decide) (by decide)
  refine ⟨?_, ?_⟩
  · rw [h.2.2.1]
    decide
  · rw [h.2.2.2.1]
    decide

/-- C1 counterexample: for the boundary-crossing record at offset 0xFFFE
with 3 payload bytes the claim predicts `0x10000 - 0xFFFE = 2` bytes
staying in the current record, but the decoder keeps only 1 and wraps
2. -/
theorem c1_counterexample :
    (Parse NewParser [lineSeg1200, lineDataFFFE3]).map
        (fun r => (r.1.data.Bytes.length, r.1.wrap.map (fun w => w.Bytes.length), r.2.2)) =
      some (1, some 2, true)
    ∧ 65536 - 65534 = 2 := by decide

/-- Sanity: first record of the package example — address 0x0010,
11 bytes, from Go `TestData`. -/
theorem sanity_data_record :
    (Parse NewParser [lineDataGap, lineEOF]).map
        (fun r => (r.1.data.Address, r.1.data.Bytes.length, r.2.2)) =
      some (16, 11, true) := by decide

/-- Sanity: Go `TestSegWrap` — a 2-byte record at segment offset 0xFFFF
splits into 1 byte at 0x21FFF and 1 pending byte at 0x12000. -/
theorem sanity_seg_wrap :
    (Parse NewParser [lineSeg1200, lineSegWrapData]).map
        (fun r => (r.1.data.Address, r.1.data.Bytes,
                   r.1.wrap, r.2.2)) =
      some (139263, [0], some { Address := 73728, Bytes := [0] }, true) := by decide

/-- Sanity: Go `TestLBASBA` — linear base FFFF0000 plus offset 0x0010
gives 0xFFFF0010. -/
theorem sanity_lba :
    (Parse NewParser [lineLBAffff, lineDataGap, lineEOF]).map
        (fun r => (r.1.data.Address, r.2.2)) =
      some (4294901776, true) := by decide
